import Mathlib

/-!
Verification of the adb `device.py` host-side control library.

Python strings are modelled as `List Char`; fallible Python functions
(those that may raise) are modelled with `Except`.  Each definition
mirrors one function or constant of `device.py`.
-/

set_option maxHeartbeats 1000000
set_option maxRecDepth 10000

namespace Adb

/-- Decidable equality for `Except`, so that concrete runs of the modelled
functions can be checked with `decide`. -/
instance {ε α : Type} [DecidableEq ε] [DecidableEq α] : DecidableEq (Except ε α) := by
  intro a b
  cases a <;> cases b
  case error.error e f => exact decidable_of_iff (e = f) (by simp)
  case ok.ok x y => exact decidable_of_iff (x = y) (by simp)
  all_goals exact isFalse (by intro h; cases h)

/-- Python `\s` / `str.strip` whitespace characters for byte strings:
space, tab, newline, carriage return, vertical tab, form feed. -/
def isPySpace (c : Char) : Bool :=
  c = ' ' || c = '\t' || c = '\n' || c = '\r' || c = '\x0b' || c = '\x0c'

/-- Python `str.strip()`: remove leading and trailing whitespace. -/
def pyStrip (s : List Char) : List Char :=
  ((s.dropWhile isPySpace).reverse.dropWhile isPySpace).reverse

/-- Value of a nonempty all-digit character list, as Python `int` reads it
(base 10); `none` when the list is empty or has a non-digit. -/
def digitsValNat (ds : List Char) : Option Nat :=
  if ds ≠ [] ∧ ds.all Char.isDigit then
    some (ds.foldl (fun a c => a * 10 + (c.toNat - 48)) 0)
  else none

/-- Python `int(s)` on a byte string: strip whitespace, optional single
sign, then a nonempty run of decimal digits; `none` models `ValueError`. -/
def pyInt (s : List Char) : Option Int :=
  match pyStrip s with
  | [] => none
  | c :: ds =>
    if c = '+' then (digitsValNat ds).map Int.ofNat
    else if c = '-' then (digitsValNat ds).map fun m => -(m : Int)
    else (digitsValNat (c :: ds)).map Int.ofNat

/-- Split `s` at the LAST occurrence of `c`:
`splitLast c s = some (b, a)` iff `s = b ++ c :: a` and `c ∉ a`;
`none` iff `c ∉ s`.  This is Python `s.rpartition(c)` for a one-character
separator (found case / not-found case). -/
def splitLast (c : Char) : List Char → Option (List Char × List Char)
  | [] => none
  | x :: s =>
    match splitLast c s with
    | some (b, a) => some (x :: b, a)
    | none => if x = c then some ([], s) else none

/-- `AndroidDevice._RETURN_CODE_DELIMITER`. -/
def RETURN_CODE_DELIMITER : Char := 'x'

/-- `AndroidDevice._RETURN_CODE_PROBE_STRING = 'echo "x$?"'`. -/
def RETURN_CODE_PROBE_STRING : String := "echo \"" ++ toString RETURN_CODE_DELIMITER ++ "$?\""

/-- `AndroidDevice._RETURN_CODE_SEARCH_LENGTH = len('x255\r\n')`. -/
def RETURN_CODE_SEARCH_LENGTH : Nat := (toString RETURN_CODE_DELIMITER ++ "255\r\n").length

/-- The trailing window that `_parse_shell_output` scans:
`out[-_RETURN_CODE_SEARCH_LENGTH:]` when `out` is longer than the window,
all of `out` otherwise. -/
def searchWindow (out : List Char) : List Char :=
  if out.length > RETURN_CODE_SEARCH_LENGTH then
    out.drop (out.length - RETURN_CODE_SEARCH_LENGTH)
  else out

/-- Errors `_parse_shell_output` can raise: the guarded `RuntimeError`
when the delimiter is absent from the window, and the unguarded
`ValueError` from `int(partition[2])`. -/
inductive ParseErr where
  | noExitStatus
  | valueErr
  deriving DecidableEq, Repr

/-- `AndroidDevice._parse_shell_output(out)`: scan the trailing window for
the last delimiter, parse the text after it as an integer exit code, and
truncate the original output before the delimiter. -/
def parseShellOutput (out : List Char) : Except ParseErr (Int × List Char) :=
  match splitLast RETURN_CODE_DELIMITER (searchWindow out) with
  | none => .error .noExitStatus
  | some (_, a) =>
    match pyInt a with
    | none => .error .valueErr
    | some r => .ok (r, out.take (out.length - (1 + a.length)))

/-- `AndroidDevice.SHELL_PROTOCOL_FEATURE`. -/
def SHELL_PROTOCOL_FEATURE : String := "shell_v2"

/-- An `AndroidDevice` handle as built by `AndroidDevice.__init__`:
the identifying constructor arguments. -/
structure AndroidDevice where
  serial : Option String
  product : Option String
  adb_path : String
  deriving DecidableEq, Repr

/-- `self.adb_cmd` as assembled by `AndroidDevice.__init__`:
`[adb_path]`, extended with `['-s', serial]` when a serial is given and
`['-p', product]` when a product is given. -/
def AndroidDevice.adb_cmd (d : AndroidDevice) : List String :=
  [d.adb_path]
    ++ (match d.serial with | some s => ["-s", s] | none => [])
    ++ (match d.product with | some p => ["-p", p] | none => [])

/-- `AndroidDevice._make_shell_cmd(user_cmd)`.  `features` is the cached
`self.features` list; the exit-code probe epilogue is appended exactly
when the `shell_v2` feature is absent. -/
def make_shell_cmd (d : AndroidDevice) (features : List String) (user_cmd : List String) : List String :=
  let command := d.adb_cmd ++ ["shell"] ++ user_cmd
  if SHELL_PROTOCOL_FEATURE ∈ features then command
  else command ++ ["; " ++ RETURN_CODE_PROBE_STRING]

/-- Result of one external process invocation (`Popen.communicate()` and
`returncode`): the process-reported return code and the captured
stdout/stderr streams. -/
structure TransportResult where
  returncode : Int
  stdout : List Char
  stderr : List Char
  deriving DecidableEq, Repr

/-- `AndroidDevice.shell_nocheck(cmd)`, with the external process
boundary abstracted as a function `run` from the full command line to a
`TransportResult`. -/
def shell_nocheck (d : AndroidDevice) (features : List String)
    (run : List String → TransportResult) (cmd : List String) :
    Except ParseErr (Int × List Char × List Char) :=
  let command := make_shell_cmd d features cmd
  let r := run command
  if SHELL_PROTOCOL_FEATURE ∈ features then
    .ok (r.returncode, r.stdout, r.stderr)
  else
    match parseShellOutput r.stdout with
    | .error e => .error e
    | .ok (exit_code, stdout) => .ok (exit_code, stdout, r.stderr)

/-- Errors raised by `AndroidDevice.shell`: its own `ShellError` with the
command, both streams and the exit code, or a propagated
`_parse_shell_output` error. -/
inductive ShellErr where
  | shellError (cmd : List String) (stdout stderr : List Char) (exit_code : Int)
  | protocolErr (e : ParseErr)
  deriving DecidableEq, Repr

/-- `AndroidDevice.shell(cmd)`: run `shell_nocheck` and raise `ShellError`
on a nonzero exit code. -/
def shell (d : AndroidDevice) (features : List String)
    (run : List String → TransportResult) (cmd : List String) :
    Except ShellErr (List Char × List Char) :=
  match shell_nocheck d features run cmd with
  | .error e => .error (.protocolErr e)
  | .ok (exit_code, stdout, stderr) =>
    if exit_code ≠ 0 then .error (.shellError cmd stdout stderr exit_code)
    else .ok (stdout, stderr)

/-- Device-directory errors (`FindDeviceError` subclasses). -/
inductive FindDeviceErr where
  | deviceNotFound (serial : String)
  | noUniqueDevice
  deriving DecidableEq, Repr

/-- `_get_device_by_serial(serial, ...)` over an already-obtained device
list: scan the list for the serial, raise `DeviceNotFoundError(serial)`
when absent. -/
def get_device_by_serial (devices : List String) (serial : String)
    (product : Option String) (adb_path : String) : Except FindDeviceErr AndroidDevice :=
  match devices with
  | [] => .error (.deviceNotFound serial)
  | device :: rest =>
    if device = serial then .ok ⟨some serial, product, adb_path⟩
    else get_device_by_serial rest serial product adb_path

/-- `_get_unique_device(...)` over an already-obtained device list:
raise `NoUniqueDeviceError` unless exactly one device is listed. -/
def get_unique_device (devices : List String) (product : Option String)
    (adb_path : String) : Except FindDeviceErr AndroidDevice :=
  if devices.length ≠ 1 then .error .noUniqueDevice
  else .ok ⟨some devices.headI, product, adb_path⟩

/-- `get_device(serial, product, adb_path)`:
(a) explicit serial, (b) the `$ANDROID_SERIAL` environment override,
(c) the unique connected device. -/
def get_device (serial : Option String) (android_serial_env : Option String)
    (product : Option String) (adb_path : String) (devices : List String) :
    Except FindDeviceErr AndroidDevice :=
  match serial with
  | some s => get_device_by_serial devices s product adb_path
  | none =>
    match android_serial_env with
    | some s => get_device_by_serial devices s product adb_path
    | none => get_unique_device devices product adb_path

/-- Python 2 `str.splitlines()` on byte strings: split at `\n`, `\r` and
`\r\n`, with no trailing empty line for a terminal line break.
`acc` holds the (reversed) characters of the current line. -/
def pySplitlinesAux (acc : List Char) : List Char → List (List Char)
  | [] => if acc.isEmpty then [] else [acc.reverse]
  | '\r' :: '\n' :: rest => acc.reverse :: pySplitlinesAux [] rest
  | '\r' :: rest => acc.reverse :: pySplitlinesAux [] rest
  | '\n' :: rest => acc.reverse :: pySplitlinesAux [] rest
  | c :: rest => pySplitlinesAux (c :: acc) rest

/-- Python 2 `s.splitlines()`. -/
def pySplitlines (s : List Char) : List (List Char) :=
  pySplitlinesAux [] s

/-- Python `pat in s` substring containment. -/
def containsSub (s pat : List Char) : Bool :=
  (List.range (s.length + 1)).any fun i => pat.isPrefixOf (s.drop i)

/-- `re.split(r'\s+', line, maxsplit=1)` restricted to what `get_devices`
needs: `some (before, after)` when the line has a whitespace character
(`before` = text before the first whitespace run, `after` = the rest),
`none` when it has no whitespace — in which case the `serial, _ = ...`
unpacking in the source raises `ValueError`. -/
def splitFirstRun (line : List Char) : Option (List Char × List Char) :=
  let before := line.takeWhile fun c => ¬ isPySpace c
  if before.length = line.length then none
  else some (before, (line.drop before.length).dropWhile isPySpace)

/-- The unpacking `ValueError` that `get_devices` can raise on a
device-list line with no whitespace. -/
inductive DevicesErr where
  | valueErr
  deriving DecidableEq, Repr

/-- The per-line loop of `get_devices`: skip blank lines, skip lines
containing the substring `offline`, take the text before the first
whitespace run of every other line as its serial. -/
def processDeviceLines : List (List Char) → Except DevicesErr (List (List Char))
  | [] => .ok []
  | line :: rest =>
    if pyStrip line = [] then processDeviceLines rest
    else if containsSub line ("offline".data) then processDeviceLines rest
    else
      match splitFirstRun line with
      | none => .error .valueErr
      | some (serial, _) => (processDeviceLines rest).map (serial :: ·)

/-- `get_devices(...)` applied to the raw text of `adb devices`: drop the
header line, then run the per-line loop. -/
def get_devices (out : List Char) : Except DevicesErr (List (List Char)) :=
  processDeviceLines ((pySplitlines out).drop 1)

/-- `re.compile(r'^\[([^]]+)\]: \[(.*)\]').match(line)`: a PREFIX match
anchored at the line start.  The key is the maximal nonempty run of
non-`]` characters after `[`; the greedy `(.*)` (which cannot cross a
newline) makes the value run to the last `]` of the newline-free prefix
of the remainder; trailing text after that `]` is ignored by `match`. -/
def matchPropLine (line : List Char) : Option (List Char × List Char) :=
  match line with
  | '[' :: rest =>
    let key := rest.takeWhile (· ≠ ']')
    if key = [] then none
    else
      match rest.drop key.length with
      | ']' :: ':' :: ' ' :: '[' :: rest2 =>
        let seg := rest2.takeWhile (· ≠ '\n')
        let rev := seg.reverse
        let tl := rev.takeWhile (· ≠ ']')
        if tl.length = rev.length then none
        else some (key, (rev.drop (tl.length + 1)).reverse)
      | _ => none
  | _ => none

/-- Errors raised by the `get_props` loop. -/
inductive PropsErr where
  | invalidLine (line : List Char)
  | duplicateKey (key : List Char)
  deriving DecidableEq, Repr

/-- The line loop of `get_props`: match each line against the bracket
pattern, reject unmatched lines and duplicate keys, accumulate the
key/value pairs in order. -/
def get_propsLoop : List (List Char) → List (List Char × List Char) → Except PropsErr (List (List Char × List Char))
  | [], result => .ok result
  | line :: rest, result =>
    match matchPropLine line with
    | none => .error (.invalidLine line)
    | some (key, value) =>
      if result.any (fun kv => kv.1 = key) then .error (.duplicateKey key)
      else get_propsLoop rest (result ++ [(key, value)])

/-- `AndroidDevice.get_props()` applied to the `getprop` output text. -/
def get_props (output : List Char) : Except PropsErr (List (List Char × List Char)) :=
  get_propsLoop (pySplitlines output) []

/-- The `RuntimeError('Too many lines ...')` of `get_prop`. -/
inductive PropErr where
  | tooManyLines
  deriving DecidableEq, Repr

/-- `AndroidDevice.get_prop(prop_name)` applied to the shell output text:
raise unless exactly one line; `none` (Python `None`) for a blank value. -/
def get_prop (output : List Char) : Except PropErr (Option (List Char)) :=
  let lines := pySplitlines output
  if lines.length ≠ 1 then .error .tooManyLines
  else
    let value := lines.headI
    if pyStrip value = [] then .ok none
    else .ok (some value)

/-- Newline-terminated join of a list of lines; the shape of the raw
texts over which line-oriented behaviour is stated. -/
def joinLinesLF (ls : List (List Char)) : List Char :=
  ls.foldr (fun l r => l ++ '\n' :: r) []

/-- The keep-condition of the `get_devices` loop: the line is not blank
and does not contain the substring `offline` anywhere. -/
def keepDeviceLine (l : List Char) : Bool :=
  !(pyStrip l).isEmpty && !containsSub l ("offline".data)

/-- The serial `get_devices` extracts from a kept line: the text before
its first whitespace run. -/
def serialOfLine (l : List Char) : List Char :=
  ((splitFirstRun l).map Prod.fst).getD []

example : parseShellOutput "hello".data = .error .noExitStatus := by decide
example : parseShellOutput "hox0".data = .ok (0, "ho".data) := by decide
example : parseShellOutput "a long payload herex255".data = .ok (255, "a long payload here".data) := by decide
example : parseShellOutput "hix7\r\n".data = .ok (7, "hi".data) := by decide
example : parseShellOutput "abcx".data = .error .valueErr := by decide
example : parseShellOutput "abcxq".data = .error .valueErr := by decide
example : parseShellOutput "xaaaaaaa".data = .error .noExitStatus := by decide
example : pySplitlines "a\r\nb\nc\rd".data = ["a".data, "b".data, "c".data, "d".data] := by decide
example : pySplitlines "".data = [] := by decide
example : pySplitlines "\n".data = [[]] := by decide
example : pySplitlines "abc\n".data = ["abc".data] := by decide
example : get_devices "List of attached devices\n\nabc123\tdevice\n".data = .ok ["abc123".data] := by decide
example : get_devices "List of attached devices\noffline123\tdevice\n".data = .ok [] := by decide
example : get_devices "header\nserialnowhitespace\n".data = .error .valueErr := by decide
example : get_props "[ro.a]: [1]\n[ro.b]: [2]".data = .ok [("ro.a".data, "1".data), ("ro.b".data, "2".data)] := by decide
example : get_props "[a]: [1]x".data = .ok [("a".data, "1".data)] := by decide
example : get_props "garbage".data = .error (.invalidLine "garbage".data) := by decide
example : get_props "[a]: [1]\n[a]: [2]".data = .error (.duplicateKey "a".data) := by decide
example : get_prop "".data = .error .tooManyLines := by decide
example : get_prop "\n".data = .ok none := by decide
example : get_prop "value\n".data = .ok (some "value".data) := by decide
example : get_prop "a\nb".data = .error .tooManyLines := by decide

/-! Helper lemmas about `splitLast`. -/

theorem splitLast_eq_none {c : Char} {s : List Char} (h : c ∉ s) : splitLast c s = none := by
  induction s with
  | nil => rfl
  | cons x t ih =>
    have hx : ¬ (x = c) := fun e => h (by simp [e])
    have ht : c ∉ t := fun e => h (by simp [e])
    simp [splitLast, ih ht, hx]

theorem not_mem_of_splitLast_eq_none {c : Char} {s : List Char}
    (h : splitLast c s = none) : c ∉ s := by
  induction s with
  | nil => simp
  | cons x t ih =>
    unfold splitLast at h
    split at h
    · exact absurd h (by simp)
    · next hsp =>
      split at h
      · exact absurd h (by simp)
      · next hx =>
        intro hm
        rcases List.mem_cons.mp hm with h1 | h2
        · exact hx h1.symm
        · exact ih hsp h2

theorem splitLast_append {c : Char} {d : List Char} (hd : c ∉ d) :
    ∀ p : List Char, splitLast c (p ++ c :: d) = some (p, d) := by
  intro p
  induction p with
  | nil => simp [splitLast, splitLast_eq_none hd]
  | cons x t ih => simp [splitLast, ih]

theorem splitLast_eq_some {c : Char} {s : List Char} :
    ∀ {b a : List Char}, splitLast c s = some (b, a) → s = b ++ c :: a ∧ c ∉ a := by
  induction s with
  | nil => intro b a h; exact absurd h (by simp [splitLast])
  | cons x t ih =>
    intro b a h
    unfold splitLast at h
    split at h
    · next b' a' hsp =>
      simp only [Option.some.injEq, Prod.mk.injEq] at h
      obtain ⟨hb, ha⟩ := h
      obtain ⟨ht, hna⟩ := ih hsp
      subst hb; subst ha
      exact ⟨by rw [ht]; rfl, hna⟩
    · next hsp =>
      split at h
      · next hx =>
        simp only [Option.some.injEq, Prod.mk.injEq] at h
        obtain ⟨hb, ha⟩ := h
        subst hb; subst ha; subst hx
        exact ⟨rfl, not_mem_of_splitLast_eq_none hsp⟩
      · exact absurd h (by simp)

/-! Helper lemmas about `pyStrip` and `pyInt` on digit strings. -/

theorem isPySpace_eq_false_of_isDigit {c : Char} (h : c.isDigit = true) :
    isPySpace c = false := by
  unfold isPySpace
  simp only [Bool.or_eq_false_iff, decide_eq_false_iff_not]
  refine ⟨⟨⟨⟨⟨?_, ?_⟩, ?_⟩, ?_⟩, ?_⟩, ?_⟩ <;> · rintro rfl; exact absurd h (by decide)

theorem dropWhile_eq_self_of_all {p : Char → Bool} {l : List Char}
    (h : ∀ c ∈ l, p c = false) : l.dropWhile p = l := by
  cases l with
  | nil => rfl
  | cons a t => simp [List.dropWhile_cons, h a (by simp)]

theorem pyStrip_eq_self {s : List Char} (h : ∀ c ∈ s, isPySpace c = false) :
    pyStrip s = s := by
  unfold pyStrip
  rw [dropWhile_eq_self_of_all h,
      dropWhile_eq_self_of_all (fun c hc => h c (List.mem_reverse.mp hc)),
      List.reverse_reverse]

theorem pyInt_digits {ds : List Char} {v : Nat} (h1 : ds ≠ [])
    (h2 : ds.all Char.isDigit = true) (h3 : digitsValNat ds = some v) :
    pyInt ds = some ((v : Int)) := by
  have hdig : ∀ c ∈ ds, c.isDigit = true := List.all_eq_true.mp h2
  obtain ⟨c, t, rfl⟩ := List.exists_cons_of_ne_nil h1
  have hstrip : pyStrip (c :: t) = c :: t :=
    pyStrip_eq_self (fun x hx => isPySpace_eq_false_of_isDigit (hdig x hx))
  have hc : c.isDigit = true := hdig c (by simp)
  have hplus : ¬ (c = '+') := by rintro rfl; exact absurd hc (by decide)
  have hminus : ¬ (c = '-') := by rintro rfl; exact absurd hc (by decide)
  unfold pyInt
  rw [hstrip]
  simp only [if_neg hplus, if_neg hminus, h3, Option.map_some']
  rfl

/-- Facts about the decimal text of every exit code 0..255: it is a
nonempty all-digit string of at most 3 characters, contains no delimiter
character, and `digitsValNat` reads back its value. -/
theorem repr_digit_facts : ∀ m : Fin 256,
    (Nat.repr m.val).data ≠ [] ∧ (Nat.repr m.val).data.all Char.isDigit = true ∧
    (Nat.repr m.val).data.length ≤ 3 ∧ RETURN_CODE_DELIMITER ∉ (Nat.repr m.val).data ∧
    digitsValNat (Nat.repr m.val).data = some m.val := by decide

/-- Core `_parse_shell_output` success lemma: on `payload ++ 'x' ++ code`,
where `code` is a nonempty all-digit string short enough that the
delimiter stays inside the trailing scan window and `code` has value `v`,
parsing returns exit code `v` and exactly the payload. -/
theorem parseShellOutput_payload_code (p d : List Char) (v : Nat)
    (hne : d ≠ []) (hdig : d.all Char.isDigit = true)
    (hlen : 1 + d.length ≤ RETURN_CODE_SEARCH_LENGTH)
    (hval : digitsValNat d = some v) :
    parseShellOutput (p ++ RETURN_CODE_DELIMITER :: d) = .ok ((v : Int), p) := by
  have hxd : RETURN_CODE_DELIMITER ∉ d := by
    intro hm
    have := List.all_eq_true.mp hdig _ hm
    exact absurd this (by decide)
  have hwin : ∃ b, splitLast RETURN_CODE_DELIMITER
      (searchWindow (p ++ RETURN_CODE_DELIMITER :: d)) = some (b, d) := by
    unfold searchWindow
    by_cases hc : (p ++ RETURN_CODE_DELIMITER :: d).length > RETURN_CODE_SEARCH_LENGTH
    · rw [if_pos hc]
      have hle : (p ++ RETURN_CODE_DELIMITER :: d).length - RETURN_CODE_SEARCH_LENGTH
          ≤ p.length := by
        simp only [List.length_append, List.length_cons]
        omega
      rw [List.drop_append_of_le_length hle]
      exact ⟨_, splitLast_append hxd _⟩
    · rw [if_neg hc]
      exact ⟨p, splitLast_append hxd p⟩
  obtain ⟨b, hb⟩ := hwin
  have htake : (p ++ RETURN_CODE_DELIMITER :: d).length - (1 + d.length) = p.length := by
    simp only [List.length_append, List.length_cons]
    omega
  unfold parseShellOutput
  rw [hb]
  simp only [pyInt_digits hne hdig hval, htake, List.take_left]

/-! The claims. -/

/-- C1: for every legacy-mode merged output `payload ++ delimiter ++ digits`
with `digits` the decimal text of an exit code in 0..255 and no delimiter
character in the payload, `_parse_shell_output` returns the integer value
of the digits and exactly the payload, whatever the relation of the total
length to the trailing scan window. -/
theorem legacy_parse_recovers_payload_and_exit_code (p : List Char) (n : Nat)
    (_hp : RETURN_CODE_DELIMITER ∉ p) (hn : n ≤ 255) :
    parseShellOutput (p ++ RETURN_CODE_DELIMITER :: (Nat.repr n).data) = .ok ((n : Int), p) := by
  obtain ⟨h1, h2, h3, _, h5⟩ := repr_digit_facts ⟨n, by omega⟩
  refine parseShellOutput_payload_code p _ n h1 h2 ?_ h5
  have h3' : (Nat.repr n).data.length ≤ 3 := h3
  have h6 : RETURN_CODE_SEARCH_LENGTH = 6 := by decide
  omega

/-- Witness for C1: a payload shorter than the scan window and one longer
than it, with exit codes 0 and 255. -/
theorem legacy_parse_recovers_payload_and_exit_code_witness :
    parseShellOutput ("a".data ++ RETURN_CODE_DELIMITER :: (Nat.repr 0).data)
      = .ok ((0 : Int), "a".data) ∧
    parseShellOutput ("hello world".data ++ RETURN_CODE_DELIMITER :: (Nat.repr 255).data)
      = .ok ((255 : Int), "hello world".data) :=
  ⟨legacy_parse_recovers_payload_and_exit_code "a".data 0 (by decide) (by decide),
   legacy_parse_recovers_payload_and_exit_code "hello world".data 255 (by decide) (by decide)⟩

/-- C3: when the delimiter does not occur inside the bounded trailing scan
window, `_parse_shell_output` raises the fatal `RuntimeError`, and so does
`shell_nocheck` in legacy mode; no other outcome, no retry.  This holds
whatever occurs in the output before the window. -/
theorem parse_error_when_delimiter_outside_window (out : List Char)
    (h : RETURN_CODE_DELIMITER ∉ searchWindow out) :
    parseShellOutput out = .error .noExitStatus ∧
    ∀ (d : AndroidDevice) (features : List String)
      (run : List String → TransportResult) (cmd : List String),
      SHELL_PROTOCOL_FEATURE ∉ features →
      (run (make_shell_cmd d features cmd)).stdout = out →
      shell_nocheck d features run cmd = .error .noExitStatus := by
  have hp : parseShellOutput out = .error .noExitStatus := by
    unfold parseShellOutput
    rw [splitLast_eq_none h]
  refine ⟨hp, ?_⟩
  intro d features run cmd hf hout
  simp only [shell_nocheck, if_neg hf, hout, hp]

/-- Witness for C3: an output whose only delimiter occurrence lies before
the trailing window; both the parser and legacy-mode `shell_nocheck`
report the protocol error on it. -/
theorem parse_error_when_delimiter_outside_window_witness :
    RETURN_CODE_DELIMITER ∈ "xaaaaaaa".data ∧
    parseShellOutput "xaaaaaaa".data = .error .noExitStatus ∧
    shell_nocheck ⟨some "serial1", none, "adb"⟩ []
      (fun _ => ⟨0, "xaaaaaaa".data, []⟩) ["ls"] = .error .noExitStatus :=
  ⟨by decide,
   (parse_error_when_delimiter_outside_window "xaaaaaaa".data (by decide)).1,
   (parse_error_when_delimiter_outside_window "xaaaaaaa".data (by decide)).2
     ⟨some "serial1", none, "adb"⟩ [] (fun _ => ⟨0, "xaaaaaaa".data, []⟩) ["ls"]
     (by simp) rfl⟩

/-- C9: there are legacy outputs whose trailing window contains the
delimiter but whose text after it is not a valid integer literal — e.g.
output ending in the bare delimiter, or delimiter followed by non-digit
text — and every such input makes `_parse_shell_output` raise the
unguarded `int()` `ValueError`, not the guarded protocol `RuntimeError`. -/
theorem parse_value_error_on_invalid_code_text :
    parseShellOutput "abcx".data = .error .valueErr ∧
    parseShellOutput "abcxq".data = .error .valueErr ∧
    ∀ (out b a : List Char),
      splitLast RETURN_CODE_DELIMITER (searchWindow out) = some (b, a) →
      pyInt a = none → parseShellOutput out = .error .valueErr := by
  refine ⟨by decide, by decide, ?_⟩
  intro out b a hsp hint
  unfold parseShellOutput
  simp only [hsp, hint]

/-- Witness for C9: the universal part applied at a concrete input. -/
theorem parse_value_error_on_invalid_code_text_witness :
    parseShellOutput "zx".data = .error .valueErr :=
  parse_value_error_on_invalid_code_text.2.2 "zx".data "z".data [] (by decide) (by decide)

/-- C10: whenever `_parse_shell_output` succeeds, the cleaned output is a
prefix of the input, obtained by removing from its end exactly the
delimiter plus the exit-code text (whose integer value is the returned
code); nothing in the interior changes. -/
theorem parse_success_truncates_exact_suffix (out : List Char) (ec : Int) (cleaned : List Char)
    (h : parseShellOutput out = .ok (ec, cleaned)) :
    ∃ codeText, out = cleaned ++ RETURN_CODE_DELIMITER :: codeText ∧ pyInt codeText = some ec := by
  unfold parseShellOutput at h
  cases hsp : splitLast RETURN_CODE_DELIMITER (searchWindow out) with
  | none => rw [hsp] at h; exact absurd h (by simp)
  | some pr =>
    obtain ⟨b, a⟩ := pr
    simp only [hsp] at h
    cases hint : pyInt a with
    | none => simp only [hint] at h; exact absurd h (by simp)
    | some r =>
      simp only [hint, Except.ok.injEq, Prod.mk.injEq] at h
      obtain ⟨hr, hcl⟩ := h
      obtain ⟨hw, -⟩ := splitLast_eq_some hsp
      have hk : ∃ k, k ≤ out.length ∧ searchWindow out = out.drop k := by
        unfold searchWindow
        split
        · exact ⟨out.length - RETURN_CODE_SEARCH_LENGTH, by omega, rfl⟩
        · exact ⟨0, by omega, rfl⟩
      obtain ⟨k, hkle, hkw⟩ := hk
      rw [hkw] at hw
      have hlen : out.length - k = b.length + 1 + a.length := by
        have hl := congrArg List.length hw
        simp only [List.length_drop, List.length_append, List.length_cons] at hl
        omega
      have htk : out.length - (1 + a.length) = k + b.length := by omega
      have htake2 : out.take (k + b.length) = out.take k ++ b := by
        rw [List.take_add out k b.length, hw, List.take_left]
      refine ⟨a, ?_, by rw [hint, hr]⟩
      rw [← hcl, htk, htake2, List.append_assoc]
      conv_lhs => rw [← List.take_append_drop k out]
      rw [hw]

/-- Witness for C10: the decomposition at a concrete successful parse. -/
theorem parse_success_truncates_exact_suffix_witness :
    ∃ codeText, "hix0".data = "hi".data ++ RETURN_CODE_DELIMITER :: codeText ∧
      pyInt codeText = some 0 :=
  parse_success_truncates_exact_suffix "hix0".data 0 "hi".data (by decide)

/-- C2: with the `shell_v2` feature present, the command line handed to the
transport is the user command with no epilogue, and `shell_nocheck` returns
the transport-reported return code and both streams verbatim. -/
theorem shell_v2_passthrough (d : AndroidDevice) (features : List String)
    (run : List String → TransportResult) (cmd : List String)
    (h : SHELL_PROTOCOL_FEATURE ∈ features) :
    make_shell_cmd d features cmd = d.adb_cmd ++ ["shell"] ++ cmd ∧
    shell_nocheck d features run cmd =
      .ok ((run (d.adb_cmd ++ ["shell"] ++ cmd)).returncode,
           (run (d.adb_cmd ++ ["shell"] ++ cmd)).stdout,
           (run (d.adb_cmd ++ ["shell"] ++ cmd)).stderr) := by
  have hm : make_shell_cmd d features cmd = d.adb_cmd ++ ["shell"] ++ cmd := by
    unfold make_shell_cmd
    rw [if_pos h]
  refine ⟨hm, ?_⟩
  simp only [shell_nocheck, hm, if_pos h]

/-- Witness for C2: a concrete `shell_v2` handle and transport. -/
theorem shell_v2_passthrough_witness :
    make_shell_cmd ⟨some "serial1", none, "adb"⟩ ["shell_v2"] ["ls", "-l"]
      = ["adb", "-s", "serial1", "shell", "ls", "-l"] ∧
    shell_nocheck ⟨some "serial1", none, "adb"⟩ ["shell_v2"]
      (fun _ => ⟨7, "out".data, "err".data⟩) ["ls", "-l"]
      = .ok (7, "out".data, "err".data) := by
  have h := shell_v2_passthrough ⟨some "serial1", none, "adb"⟩ ["shell_v2"]
    (fun _ => ⟨7, "out".data, "err".data⟩) ["ls", "-l"] (by decide)
  exact ⟨h.1.trans (by decide), h.2.trans (by decide)⟩

/-- C4: for every result `(exit_code, stdout, stderr)` of `shell_nocheck`,
`shell` raises `ShellError` carrying the command, both streams and the
code exactly when the code is nonzero, and otherwise returns the two
streams. -/
theorem shell_raises_iff_nonzero_exit (d : AndroidDevice) (features : List String)
    (run : List String → TransportResult) (cmd : List String)
    (ec : Int) (out err : List Char)
    (h : shell_nocheck d features run cmd = .ok (ec, out, err)) :
    (shell d features run cmd = .error (.shellError cmd out err ec) ↔ ec ≠ 0) ∧
    (ec = 0 → shell d features run cmd = .ok (out, err)) := by
  unfold shell
  rw [h]
  by_cases h0 : ec = 0
  · subst h0; simp
  · simp [h0]

/-- Witness for C4: a nonzero-exit run raising `ShellError` with the full
context, and a zero-exit run returning the streams. -/
theorem shell_raises_iff_nonzero_exit_witness :
    (shell ⟨some "serial1", none, "adb"⟩ ["shell_v2"]
        (fun _ => ⟨3, "o".data, "e".data⟩) ["ls"]
      = .error (.shellError ["ls"] "o".data "e".data 3) ↔ (3 : Int) ≠ 0) ∧
    shell ⟨some "serial1", none, "adb"⟩ ["shell_v2"]
        (fun _ => ⟨0, "o".data, "e".data⟩) ["ls"]
      = .ok ("o".data, "e".data) :=
  ⟨(shell_raises_iff_nonzero_exit ⟨some "serial1", none, "adb"⟩ ["shell_v2"]
      (fun _ => ⟨3, "o".data, "e".data⟩) ["ls"] 3 "o".data "e".data (by decide)).1,
   (shell_raises_iff_nonzero_exit ⟨some "serial1", none, "adb"⟩ ["shell_v2"]
      (fun _ => ⟨0, "o".data, "e".data⟩) ["ls"] 0 "o".data "e".data (by decide)).2 rfl⟩

/-- Devices lists not containing a serial make `_get_device_by_serial`
raise `DeviceNotFoundError` with that serial. -/
theorem get_device_by_serial_not_mem {devices : List String} {s : String}
    (h : s ∉ devices) (product : Option String) (adb_path : String) :
    get_device_by_serial devices s product adb_path = .error (.deviceNotFound s) := by
  induction devices with
  | nil => rfl
  | cons d t ih =>
    have hd : ¬ (d = s) := fun e => h (by simp [e])
    have ht : s ∉ t := fun e => h (by simp [e])
    simp [get_device_by_serial, hd, ih ht]

/-- C5: device resolution order and failures — an explicit serial absent
from the device list raises `DeviceNotFoundError` with that serial
(whatever the environment override); with no serial and no override, a
device list whose length differs from 1 raises `NoUniqueDeviceError`; a
one-element list `["only"]` yields the handle for `"only"`. -/
theorem device_resolution (product : Option String) (adb_path : String) :
    (∀ (s : String) (env : Option String) (devices : List String),
      s ∉ devices →
      get_device (some s) env product adb_path devices = .error (.deviceNotFound s)) ∧
    (∀ devices : List String, devices.length ≠ 1 →
      get_device none none product adb_path devices = .error .noUniqueDevice) ∧
    get_device none none product adb_path ["only"] = .ok ⟨some "only", product, adb_path⟩ := by
  refine ⟨?_, ?_, ?_⟩
  · intro s env devices h
    exact get_device_by_serial_not_mem h product adb_path
  · intro devices h
    simp [get_device, get_unique_device, h]
  · rfl

/-- Witness for C5: the spec's concrete scenarios, including the empty and
the two-element device list. -/
theorem device_resolution_witness :
    get_device (some "c") none none "adb" ["a", "b"] = .error (.deviceNotFound "c") ∧
    get_device none none none "adb" ["a", "b"] = .error .noUniqueDevice ∧
    get_device none none none "adb" [] = .error .noUniqueDevice ∧
    get_device none none none "adb" ["only"] = .ok ⟨some "only", none, "adb"⟩ :=
  ⟨(device_resolution none "adb").1 "c" none ["a", "b"] (by decide),
   (device_resolution none "adb").2.1 ["a", "b"] (by decide),
   (device_resolution none "adb").2.1 [] (by decide),
   (device_resolution none "adb").2.2⟩

/-! Line-splitting lemmas for the corrected claims. -/

theorem pySplitlinesAux_line {l : List Char} (hl : ∀ c ∈ l, c ≠ '\n' ∧ c ≠ '\r') :
    ∀ (acc rest : List Char),
      pySplitlinesAux acc (l ++ '\n' :: rest) = (acc.reverse ++ l) :: pySplitlinesAux [] rest := by
  induction l with
  | nil =>
    intro acc rest
    show pySplitlinesAux acc ('\n' :: rest) = _
    rw [show pySplitlinesAux acc ('\n' :: rest) = acc.reverse :: pySplitlinesAux [] rest from rfl]
    simp
  | cons c t ih =>
    intro acc rest
    have hc := hl c (by simp)
    show pySplitlinesAux acc (c :: (t ++ '\n' :: rest)) = _
    rw [show pySplitlinesAux acc (c :: (t ++ '\n' :: rest))
          = pySplitlinesAux (c :: acc) (t ++ '\n' :: rest) from by
        simp [pySplitlinesAux, hc.1, hc.2]]
    rw [ih (fun x hx => hl x (List.mem_cons_of_mem c hx)) (c :: acc) rest]
    simp

theorem pySplitlines_join {ls : List (List Char)}
    (h : ∀ l ∈ ls, ∀ c ∈ l, c ≠ '\n' ∧ c ≠ '\r') :
    pySplitlines (joinLinesLF ls) = ls := by
  induction ls with
  | nil => rfl
  | cons l t ih =>
    have hjoin : joinLinesLF (l :: t) = l ++ '\n' :: joinLinesLF t := rfl
    unfold pySplitlines
    rw [hjoin, pySplitlinesAux_line (h l (by simp)) [] (joinLinesLF t),
        List.reverse_nil, List.nil_append]
    rw [show pySplitlinesAux [] (joinLinesLF t) = pySplitlines (joinLinesLF t) from rfl]
    rw [ih fun l' hl' => h l' (by simp [hl'])]

theorem processDeviceLines_filter (entries : List (List Char))
    (h : ∀ l ∈ entries, keepDeviceLine l = true → splitFirstRun l ≠ none) :
    processDeviceLines entries = .ok ((entries.filter keepDeviceLine).map serialOfLine) := by
  induction entries with
  | nil => rfl
  | cons l t ih =>
    have ht := fun l' hl' h' => h l' (List.mem_cons_of_mem l hl') h'
    by_cases h1 : pyStrip l = []
    · have hk : keepDeviceLine l = false := by simp [keepDeviceLine, h1]
      simp [processDeviceLines, h1, List.filter_cons, hk, ih ht]
    · by_cases h2 : containsSub l ("offline".data) = true
      · have hk : keepDeviceLine l = false := by simp [keepDeviceLine, h2]
        simp [processDeviceLines, h1, h2, List.filter_cons, hk, ih ht]
      · have hk : keepDeviceLine l = true := by
          simp [keepDeviceLine, h1, Bool.not_eq_true] at *
          simp [h2]
        have hs := h l (by simp) hk
        cases hsp : splitFirstRun l with
        | none => exact absurd hsp hs
        | some pr =>
          obtain ⟨serial, after⟩ := pr
          simp [processDeviceLines, h1, h2, hsp, List.filter_cons, hk, ih ht,
                serialOfLine, Except.map]

/-- C6 counterexample: the entry line `offline123\tdevice` has state field
`device`, not `offline` — yet `get_devices` drops it, because the loop
tests substring containment of `offline` in the whole line. -/
theorem get_devices_drops_entry_with_offline_serial :
    splitFirstRun "offline123\tdevice".data = some ("offline123".data, "device".data) ∧
    get_devices "List of attached devices\noffline123\tdevice\n".data = .ok [] :=
  ⟨by decide, by decide⟩

/-- C6 amended: `get_devices` skips the header line, then filters out the
blank lines and exactly those lines CONTAINING the substring `offline`
anywhere (not just in the state field), and returns the first
whitespace-delimited field of each remaining line in listed order; on the
spec's example input it returns `["abc123"]`. -/
theorem get_devices_filters_offline_substring :
    get_devices "List of attached devices\n\nabc123\tdevice\n".data = .ok ["abc123".data] ∧
    ∀ (entries : List (List Char)),
      (∀ l ∈ entries, ∀ c ∈ l, c ≠ '\n' ∧ c ≠ '\r') →
      (∀ l ∈ entries, keepDeviceLine l = true → splitFirstRun l ≠ none) →
      get_devices ("List of attached devices".data ++ '\n' :: joinLinesLF entries) =
        .ok ((entries.filter keepDeviceLine).map serialOfLine) := by
  refine ⟨by decide, ?_⟩
  intro entries hchars h
  unfold get_devices pySplitlines
  rw [pySplitlinesAux_line (by decide) [] (joinLinesLF entries),
      List.reverse_nil, List.nil_append]
  show processDeviceLines (pySplitlinesAux [] (joinLinesLF entries)) = _
  rw [show pySplitlinesAux [] (joinLinesLF entries) = pySplitlines (joinLinesLF entries) from rfl]
  rw [pySplitlines_join hchars]
  exact processDeviceLines_filter entries h

/-- Witness for the amended C6: one kept entry, one blank line and one
entry dropped for containing `offline` in its serial. -/
theorem get_devices_filters_offline_substring_witness :
    get_devices ("List of attached devices".data ++ '\n' ::
        joinLinesLF ["emulator-5554\tdevice".data, [], "has-offline-x\tdevice".data]) =
      .ok ["emulator-5554".data] :=
  (get_devices_filters_offline_substring.2
      ["emulator-5554\tdevice".data, [], "has-offline-x\tdevice".data]
      (by decide) (by decide)).trans (by decide)

/-! Lemmas about the `get_props` regex matcher and loop. -/

theorem takeWhile_eq_self_of_all {p : Char → Bool} {l : List Char}
    (h : ∀ c ∈ l, p c = true) : l.takeWhile p = l := by
  induction l with
  | nil => rfl
  | cons c t ih =>
    simp [List.takeWhile_cons, h c (by simp),
          ih fun x hx => h x (List.mem_cons_of_mem c hx)]

theorem takeWhile_append_cons {p : Char → Bool} {k : List Char}
    (hk : ∀ c ∈ k, p c = true) {x : Char} (hx : p x = false) (t : List Char) :
    (k ++ x :: t).takeWhile p = k := by
  induction k with
  | nil => simp [List.takeWhile_cons, hx]
  | cons c k' ih =>
    simp [List.takeWhile_cons, hk c (by simp),
          ih fun y hy => hk y (List.mem_cons_of_mem c hy)]

/-- A line of the exact bracket form `[key]: [value]` (nonempty key with
no `]`, value free of line breaks) is matched by the `get_props` pattern
with exactly that key and value — even when the value contains `]`,
because the greedy `(.*)` runs to the line's last `]`. -/
theorem matchPropLine_exact {k v : List Char} (hk : k ≠ []) (hkr : ']' ∉ k)
    (hv : '\n' ∉ v) :
    matchPropLine ('[' :: (k ++ ']' :: ':' :: ' ' :: '[' :: (v ++ [']']))) = some (k, v) := by
  have htk : (k ++ ']' :: ':' :: ' ' :: '[' :: (v ++ [']'])).takeWhile
      (fun c => decide (c ≠ ']')) = k := by
    refine takeWhile_append_cons (fun c hc => ?_) (by decide) _
    have hne : c ≠ ']' := fun e => hkr (e ▸ hc)
    simp [hne]
  have hseg : (v ++ [']']).takeWhile (fun c => decide (c ≠ '\n')) = v ++ [']'] := by
    refine takeWhile_eq_self_of_all fun c hc => ?_
    have hne : c ≠ '\n' := by
      rcases List.mem_append.mp hc with h1 | h1
      · exact fun e => hv (e ▸ h1)
      · rw [List.mem_singleton] at h1
        rw [h1]
        decide
    simp [hne]
  unfold matchPropLine
  simp only [htk, if_neg hk, List.drop_left, hseg]
  simp [List.reverse_append, List.takeWhile_cons]

theorem get_propsLoop_ok_all_match {lines : List (List Char)} :
    ∀ {acc m}, get_propsLoop lines acc = .ok m → ∀ line ∈ lines, matchPropLine line ≠ none := by
  induction lines with
  | nil =>
    intro acc m _ line hl
    exact absurd hl (List.not_mem_nil line)
  | cons l t ih =>
    intro acc m h line hl
    unfold get_propsLoop at h
    cases hm : matchPropLine l with
    | none => simp [hm] at h
    | some pr =>
      obtain ⟨key, value⟩ := pr
      simp only [hm] at h
      by_cases hdup : acc.any (fun kv => kv.1 = key) = true
      · rw [if_pos hdup] at h
        simp at h
      · rw [if_neg hdup] at h
        rcases List.mem_cons.mp hl with rfl | hmem
        · simp [hm]
        · exact ih h line hmem

theorem get_propsLoop_ok_nodup {lines : List (List Char)} :
    ∀ {acc m}, get_propsLoop lines acc = .ok m →
      (acc.map Prod.fst).Nodup → (m.map Prod.fst).Nodup := by
  induction lines with
  | nil =>
    intro acc m h hn
    unfold get_propsLoop at h
    injection h with h'
    exact h' ▸ hn
  | cons l t ih =>
    intro acc m h hn
    unfold get_propsLoop at h
    cases hm : matchPropLine l with
    | none => simp [hm] at h
    | some pr =>
      obtain ⟨key, value⟩ := pr
      simp only [hm] at h
      by_cases hdup : acc.any (fun kv => kv.1 = key) = true
      · rw [if_pos hdup] at h
        simp at h
      · rw [if_neg hdup] at h
        refine ih h ?_
        rw [List.map_append, List.nodup_append]
        refine ⟨hn, by simp, ?_⟩
        intro a ha hb
        simp only [List.map_cons, List.map_nil, List.mem_singleton] at hb
        subst hb
        rw [List.mem_map] at ha
        obtain ⟨kv, hkv, hfst⟩ := ha
        exact hdup (List.any_eq_true.mpr ⟨kv, hkv, by simp [hfst]⟩)

/-- C7 counterexample: the line `[a]: [1]x` is not of the exact form
`[key]: [value]` (it does not end at the value's closing bracket), yet
`get_props` parses it as `a ↦ 1` instead of raising, because `re.match`
only anchors the pattern at the start of the line. -/
theorem get_props_accepts_trailing_garbage :
    get_props "[a]: [1]x".data = .ok [("a".data, "1".data)] ∧
    ∀ k v : List Char, "[a]: [1]x".data ≠ '[' :: (k ++ ']' :: ':' :: ' ' :: '[' :: (v ++ [']'])) := by
  refine ⟨by decide, ?_⟩
  intro k v h
  have h1 : ("[a]: [1]x".data).getLast? = some 'x' := by decide
  have h2 : ('[' :: (k ++ ']' :: ':' :: ' ' :: '[' :: (v ++ [']']))).getLast? = some ']' := by
    rw [show '[' :: (k ++ ']' :: ':' :: ' ' :: '[' :: (v ++ [']']))
          = ('[' :: (k ++ ']' :: ':' :: ' ' :: '[' :: v)) ++ [']'] from by simp,
        List.getLast?_concat]
  rw [h, h2] at h1
  exact absurd h1 (by decide)

/-- C7 amended: `get_props` parses by PREFIX-matching each line against
`[key]: [value]` — every exact-form line parses to its key and value, the
example input yields its mapping, a line the pattern does not match at
all raises, and a duplicate key raises; but text trailing the value's
closing bracket is ignored rather than rejected.  Whenever `get_props`
succeeds, every line was matched and the collected keys are distinct. -/
theorem get_props_prefix_match_behaviour :
    get_props "[ro.a]: [1]\n[ro.b]: [2]".data
      = .ok [("ro.a".data, "1".data), ("ro.b".data, "2".data)] ∧
    get_props "[ro.a]: [1]\n[ro.a]: [2]".data = .error (.duplicateKey "ro.a".data) ∧
    get_props "garbage".data = .error (.invalidLine "garbage".data) ∧
    (∀ k v : List Char, k ≠ [] → ']' ∉ k → '\n' ∉ v →
      matchPropLine ('[' :: (k ++ ']' :: ':' :: ' ' :: '[' :: (v ++ [']']))) = some (k, v)) ∧
    (∀ (output : List Char) (m : List (List Char × List Char)),
      get_props output = .ok m →
      (∀ line ∈ pySplitlines output, matchPropLine line ≠ none) ∧ (m.map Prod.fst).Nodup) :=
  ⟨by decide, by decide, by decide,
   fun _ _ hk hkr hv => matchPropLine_exact hk hkr hv,
   fun _ _ h => ⟨get_propsLoop_ok_all_match h, get_propsLoop_ok_nodup h (by simp)⟩⟩

/-- Witness for the amended C7: an exact-form line whose value itself
contains `]`, matched to exactly that key and value. -/
theorem get_props_prefix_match_behaviour_witness :
    matchPropLine ('[' :: ("key1".data ++ ']' :: ':' :: ' ' :: '[' :: ("va]ue".data ++ [']'])))
      = some ("key1".data, "va]ue".data) :=
  get_props_prefix_match_behaviour.2.2.2.1 "key1".data "va]ue".data
    (by decide) (by decide) (by decide)

/-- C8 counterexample: on empty shell output, `get_prop` raises the
`RuntimeError` (the empty string splits into zero lines, and the code
rejects every line count other than 1) instead of returning the absent
sentinel the claim promises. -/
theorem get_prop_raises_on_empty_output :
    pySplitlines "".data = [] ∧
    get_prop "".data = .error .tooManyLines :=
  ⟨by decide, by decide⟩

/-- C8 amended: `get_prop` raises exactly when the number of output lines
differs from 1 — including the zero-line case of empty-string output;
with exactly one line it returns the absent sentinel when the line is
empty or whitespace-only and the line's text otherwise. -/
theorem get_prop_line_count_behaviour :
    (∀ output : List Char, (pySplitlines output).length ≠ 1 →
      get_prop output = .error .tooManyLines) ∧
    (∀ (output value : List Char), pySplitlines output = [value] →
      get_prop output = if pyStrip value = [] then .ok none else .ok (some value)) ∧
    get_prop "".data = .error .tooManyLines ∧
    get_prop "\n".data = .ok none ∧
    get_prop "  \n".data = .ok none ∧
    get_prop "value\n".data = .ok (some "value".data) ∧
    get_prop "a\nb".data = .error .tooManyLines := by
  refine ⟨?_, ?_, by decide, by decide, by decide, by decide, by decide⟩
  · intro output h
    simp [get_prop, h]
  · intro output value h
    simp only [get_prop, h, List.length_cons, List.length_nil, List.headI]
    norm_num

/-- Witness for the amended C8: the two universal parts applied at
concrete outputs. -/
theorem get_prop_line_count_behaviour_witness :
    get_prop "x\ny\nz".data = .error .tooManyLines ∧
    get_prop "res\n".data = (if pyStrip "res".data = [] then .ok none else .ok (some "res".data)) :=
  ⟨get_prop_line_count_behaviour.1 "x\ny\nz".data (by decide),
   get_prop_line_count_behaviour.2.1 "res\n".data "res".data (by decide)⟩

end Adb
